import Mathlib

/-!
# Verification of the `builder` HTTP client library

A shallow embedding of the request-assembly, content-negotiation and retrying
execution pipeline of the `builder` Go library, together with proofs of the
behavioural properties stated in its specification.

Conventions of the embedding:
* Go strings are Lean `String`s; Go byte slices holding textual payloads are
  `String`s as well (every payload the claims exercise is text).
* Go `(value, error)` pairs become `Except String` / `Option` results.
* A `sync.Map` is embedded as an association list `List (String × String)`
  in `Range` iteration order; `Store` updates in place or appends.  Go gives
  no ordering guarantee for `Range`, so every association-list state that
  `Store` can build is a possible iteration order of the real map.
* Machine integers that the code never overflows (status codes, retry
  counters, loop indices) are `Nat`.
* A runtime panic (out-of-range slice write, `nil`-pointer dereference) is
  represented by `Option.none` / a dedicated constructor, never by a default
  value.
-/

namespace Builder

/-! ## Percent encoding (`net/url.QueryEscape`)

`url.QueryEscape` keeps unreserved bytes `A-Z a-z 0-9 - _ . ~`, turns a space
into `+`, and renders every other byte of the UTF-8 encoding as `%XX` with
upper-case hex digits. -/

/-- Upper-case hexadecimal digit for `n < 16`. -/
def hexDigit (n : Nat) : Char :=
  if n < 10 then Char.ofNat (48 + n) else Char.ofNat (55 + n)

/-- Bytes `url.QueryEscape` leaves unescaped: `A-Z`, `a-z`, `0-9`, `-`, `_`, `.`, `~`. -/
def isUnreservedByte (b : Nat) : Bool :=
  (65 ≤ b && b ≤ 90) || (97 ≤ b && b ≤ 122) || (48 ≤ b && b ≤ 57) ||
    b == 45 || b == 95 || b == 46 || b == 126

/-- Escape a single byte of the UTF-8 encoding, as `url.QueryEscape` does. -/
def escapeByte (b : Nat) : List Char :=
  if isUnreservedByte b then [Char.ofNat b]
  else if b == 32 then ['+']
  else ['%', hexDigit (b / 16), hexDigit (b % 16)]

/-- `url.QueryEscape`: percent-encode a string over its UTF-8 bytes. -/
def queryEscape (s : String) : String :=
  ⟨(s.data.flatMap fun c => (String.utf8EncodeChar c).flatMap fun b => escapeByte b.toNat)⟩

/-! ## `sync.Map` model and the two encoders from `request.go`

`Request.QueryParam` and `Request.FormData` are `sync.Map`s.  We embed a map
as the association list of its entries in `Range` order.  `Store` overwrites
an existing key in place and appends a new one; the real `sync.Map` gives no
iteration-order guarantee at all, so in particular every list our `store`
builds is a reachable iteration order. -/

/-- One `sync.Map` holding string keys and values, in `Range` order. -/
abbrev SyncMap := List (String × String)

/-- `sync.Map.Store`: overwrite an existing entry in place, else append. -/
def store (m : SyncMap) (k v : String) : SyncMap :=
  if m.any (fun p => p.1 == k) then
    m.map fun p => if p.1 == k then (k, v) else p
  else
    m ++ [(k, v)]

/-- `Request.SetQueryParams`: store every pair of the argument mapping. -/
def storeAll (m : SyncMap) (ps : List (String × String)) : SyncMap :=
  ps.foldl (fun acc p => store acc p.1 p.2) m

/-- The body of the `Range` callback in `GetQueryParamsEncode` /
`GetFormDataEncode` (request.go:103-126): accumulate
`url.QueryEscape(k) + "=" + url.QueryEscape(v)` parts in iteration order. -/
def encodeParts (m : SyncMap) : List String :=
  m.foldl (fun parts p => parts ++ [queryEscape p.1 ++ "=" ++ queryEscape p.2]) []

/-- `Request.GetQueryParamsEncode` (request.go:103-113): join the escaped
`k=v` parts of `Request.QueryParam` with `&` in `Range` order. -/
def GetQueryParamsEncode (queryParam : SyncMap) : String :=
  String.intercalate "&" (encodeParts queryParam)

/-- `Request.GetFormDataEncode` (request.go:116-126): identical encoding of
`Request.FormData`. -/
def GetFormDataEncode (formData : SyncMap) : String :=
  String.intercalate "&" (encodeParts formData)

theorem encodeParts_eq_map (m : SyncMap) :
    encodeParts m = m.map fun p => queryEscape p.1 ++ "=" ++ queryEscape p.2 := by
  suffices h : ∀ acc : List String,
      m.foldl (fun parts p => parts ++ [queryEscape p.1 ++ "=" ++ queryEscape p.2]) acc =
        acc ++ m.map (fun p => queryEscape p.1 ++ "=" ++ queryEscape p.2) by
    simpa [encodeParts] using h []
  induction m with
  | nil => intro acc; simp
  | cons p rest ih => intro acc; simp [List.foldl_cons, ih]

/-! ## URL resolution (`response.go:50-74`, `client.go:110-113`)

`newParseUrl` fails when both the client base URL and the path are empty,
prefixes a non-empty path with `/` when needed, concatenates, and hands the
result to `net/url.Parse`.  The parser is a parameter of the embedding; Go's
`url.Parse` together with `URL.String` round-trips the well-formed absolute
URLs this library builds, which `urlParseId` models. -/

/-- The two failure modes of `newParseUrl`: the empty-target error the code
formats itself, and a failure of `net/url.Parse`. -/
inductive UrlError where
  | emptyTarget (msg : String)
  | parseFailure (msg : String)
deriving DecidableEq

/-- `strings.HasPrefix` over the characters of the two strings. -/
def goHasPrefix (s pre : String) : Bool :=
  s.data.take pre.data.length == pre.data

/-- `newParseUrl` (response.go:50-74), abstracted over `net/url.Parse`.
The returned string is the resolved URL as `request.URL` renders it. -/
def newParseUrl (parse : String → Except String String)
    (baseURL path : String) : Except UrlError String :=
  if baseURL = "" ∧ path = "" then
    .error (.emptyTarget "request Error: baseUrl and path are empty")
  else
    match parse (baseURL ++ if path ≠ "" ∧ goHasPrefix path "/" = false then "/" ++ path else path) with
    | .ok u => .ok u
    | .error e => .error (.parseFailure e)

/-- Model of `net/url.Parse` composed with `URL.String` on the URLs this
library builds: parsing succeeds and serialization round-trips. -/
def urlParseId : String → Except String String := fun s => .ok s

/-- `strings.TrimRight(baseUrl, "/")` as performed by `Client.SetBaseURL`
(client.go:110-113). -/
def SetBaseURL (baseUrl : String) : String :=
  ⟨(baseUrl.data.reverse.dropWhile (· == '/')).reverse⟩

/-- C8: URL resolution fails with the empty-target error exactly when both
the base URL and the path are empty; with any non-empty component the
resolution never produces that error (`response.go:50-74`). -/
theorem newParseUrl_emptyTarget_iff (parse : String → Except String String)
    (baseURL path : String) :
    newParseUrl parse baseURL path =
        .error (.emptyTarget "request Error: baseUrl and path are empty") ↔
      baseURL = "" ∧ path = "" := by
  constructor
  · intro h
    unfold newParseUrl at h
    split at h
    · next hc => exact hc
    · next hc =>
      exfalso
      split at h <;> simp_all
  · rintro ⟨hb, hp⟩
    simp [newParseUrl, hb, hp]

/-- Witness for C8 at the concrete empty base URL and empty path. -/
theorem newParseUrl_emptyTarget_iff_witness :
    newParseUrl urlParseId "" "" =
        .error (.emptyTarget "request Error: baseUrl and path are empty") ↔
      ("" : String) = "" ∧ ("" : String) = "" :=
  newParseUrl_emptyTarget_iff urlParseId "" ""

/-- C9: for a non-empty stored base URL (trailing slashes trimmed by
`SetBaseURL`) and a non-empty path without a leading `/`, the resolved URL
is `base ++ "/" ++ path` (`response.go:50-74`, `client.go:110-113`). -/
theorem newParseUrl_joins_base_and_path (rawBase path : String)
    (hbase : SetBaseURL rawBase ≠ "") (hpath : path ≠ "")
    (hsep : goHasPrefix path "/" = false) :
    newParseUrl urlParseId (SetBaseURL rawBase) path =
      .ok (SetBaseURL rawBase ++ "/" ++ path) := by
  have hcond : ¬ (SetBaseURL rawBase = "" ∧ path = "") := by
    rintro ⟨hb, _⟩; exact hbase hb
  simp only [newParseUrl, if_neg hcond, urlParseId]
  rw [if_pos ⟨hpath, hsep⟩, ← String.append_assoc]

/-- Witness for C9 at the spec's example: base `https://api.example.com/`
(stored trimmed) and path `users` resolve to `https://api.example.com/users`. -/
theorem newParseUrl_joins_base_and_path_witness :
    SetBaseURL "https://api.example.com/" ≠ "" ∧ "users" ≠ "" ∧
      goHasPrefix "users" "/" = false ∧
      newParseUrl urlParseId (SetBaseURL "https://api.example.com/") "users" =
        .ok "https://api.example.com/users" :=
  ⟨by decide, by decide, by rfl,
    newParseUrl_joins_base_and_path "https://api.example.com/" "users"
      (by decide) (by decide) (by rfl)⟩

/-! ## C4: encoder ordering -/

theorem queryEscape_sample : queryEscape "a b&c" = "a+b%26c" := by rfl

/-- C4 counterexample: storing key `"b"` and then key `"a"` in an empty
`sync.Map` is a reachable map state whose `Range` order yields `b` before
`a`; the encoders do not sort, so the output is `b=2&a=1`, not the
alphabetical `a=1&b=2`. -/
theorem queryParamsEncode_not_alphabetical :
    GetQueryParamsEncode (store (store [] "b" "2") "a" "1") = "b=2&a=1" ∧
      GetQueryParamsEncode (store (store [] "b" "2") "a" "1") ≠ "a=1&b=2" := by
  constructor
  · rfl
  · decide

/-- C4 amended: `GetQueryParamsEncode` is a pure function of the map's entry
sequence — each key and value percent-encoded with `url.QueryEscape` and the
`k=v` parts joined with `&` in `Range` iteration order (not sorted) — and
`GetFormDataEncode` performs the identical encoding
(request.go:103-113, 116-126). -/
theorem queryParamsEncode_pointwise (m : SyncMap) :
    GetQueryParamsEncode m =
        String.intercalate "&"
          (m.map fun p => queryEscape p.1 ++ "=" ++ queryEscape p.2) ∧
      GetFormDataEncode m = GetQueryParamsEncode m := by
  refine ⟨?_, rfl⟩
  rw [GetQueryParamsEncode, encodeParts_eq_map]

/-- Witness for the C4 amended theorem at a concrete one-entry map. -/
theorem queryParamsEncode_pointwise_witness :
    GetQueryParamsEncode [("b", "2")] =
        String.intercalate "&"
          ([(("b" : String), ("2" : String))].map fun p =>
            queryEscape p.1 ++ "=" ++ queryEscape p.2) ∧
      GetFormDataEncode [("b", "2")] = GetQueryParamsEncode [("b", "2")] :=
  queryParamsEncode_pointwise [("b", "2")]

/-! ## Retrying execution engine (`response.go:184-196`)

`newDoRequest` runs `httpClientRaw.Do` up to `RetryCount` times: a
transport-level error logs and continues; any received HTTP response (every
status code) returns immediately with no error.  After the loop it returns
`nil` and `fmt.Errorf("request Error: %s", err.Error())` built from the last
attempt's error; if no attempt ever ran, `err` is `nil` and `err.Error()`
would be a nil-pointer panic, which gets its own constructor. -/

/-- An HTTP response as the transport delivers it: any status code counts. -/
structure HttpResp where
  statusCode : Nat
  body : String
deriving DecidableEq

/-- Result of `newDoRequest`: the returned `*Response` (success), the
`(nil, error)` pair after exhaustion, or the nil-`err` panic of the
unreachable zero-retry exit. -/
inductive DoOutcome where
  | success (resp : HttpResp)
  | failure (msg : String)
  | nilErrorPanic
deriving DecidableEq

/-- The loop of `newDoRequest` (response.go:187-195): `remaining` attempts
left, `i` the index of the next attempt, `lastErr` the error of the previous
attempt.  Also counts the attempts performed. -/
def newDoRequestLoop (transport : Nat → Except String HttpResp) :
    Nat → Nat → Option String → DoOutcome × Nat
  | 0, _, lastErr =>
    (match lastErr with
     | some e => .failure ("request Error: " ++ e)
     | none => .nilErrorPanic, 0)
  | remaining + 1, i, _ =>
    match transport i with
    | .ok resp => (.success resp, 1)
    | .error e =>
      let rest := newDoRequestLoop transport remaining (i + 1) (some e)
      (rest.1, rest.2 + 1)

/-- `newDoRequest` (response.go:184-196): run the transport up to
`retryCount` times starting from attempt `0` with no previous error. -/
def newDoRequest (retryCount : Nat) (transport : Nat → Except String HttpResp) :
    DoOutcome × Nat :=
  newDoRequestLoop transport retryCount 0 none

theorem newDoRequestLoop_all_fail (err : Nat → String) (r i : Nat)
    (le : Option String) (hr : 1 ≤ r) :
    newDoRequestLoop (fun j => .error (err j)) r i le =
      (.failure ("request Error: " ++ err (i + r - 1)), r) := by
  induction r generalizing i le with
  | zero => omega
  | succ r ih =>
    rcases Nat.eq_zero_or_pos r with hz | hp
    · subst hz
      simp [newDoRequestLoop]
    · rw [newDoRequestLoop]
      simp only [ih (i + 1) (some (err i)) hp]
      have : i + 1 + r - 1 = i + (r + 1) - 1 := by omega
      rw [this]

/-- C2: with a transport failing at every attempt and a configured retry
count `n ≥ 1`, the engine performs exactly `n` attempts and then returns no
response and an error wrapping the last transport error
(response.go:184-196). -/
theorem newDoRequest_exhaustion (n : Nat) (err : Nat → String) (hn : 1 ≤ n) :
    newDoRequest n (fun j => .error (err j)) =
      (.failure ("request Error: " ++ err (n - 1)), n) := by
  simpa using newDoRequestLoop_all_fail err n 0 none hn

/-- Witness for C2: three attempts against an always-failing transport give
three calls and the wrapped final error. -/
theorem newDoRequest_exhaustion_witness :
    1 ≤ 3 ∧
      newDoRequest 3 (fun j => .error (if j = 2 then "timeout" else "refused")) =
        (.failure "request Error: timeout", 3) := by
  refine ⟨by decide, ?_⟩
  have h := newDoRequest_exhaustion 3 (fun j => if j = 2 then "timeout" else "refused")
    (by decide)
  simpa using h

theorem newDoRequestLoop_succeeds_at (transport : Nat → Except String HttpResp)
    (err : Nat → String) (resp : HttpResp) :
    ∀ k r i le, k + 1 ≤ r →
      (∀ j, j < k → transport (i + j) = .error (err (i + j))) →
      transport (i + k) = .ok resp →
      newDoRequestLoop transport r i le = (.success resp, k + 1) := by
  intro k
  induction k with
  | zero =>
    intro r i le hr _ hok
    obtain ⟨r', rfl⟩ : ∃ r', r = r' + 1 := ⟨r - 1, by omega⟩
    rw [newDoRequestLoop, show transport i = .ok resp from by simpa using hok]
  | succ k ih =>
    intro r i le hr hfail hok
    obtain ⟨r', rfl⟩ : ∃ r', r = r' + 1 := ⟨r - 1, by omega⟩
    rw [newDoRequestLoop]
    have hf0 : transport i = .error (err i) := by
      simpa using hfail 0 (Nat.succ_pos k)
    rw [hf0]
    have hrec := ih r' (i + 1) (some (err i)) (by omega)
      (fun j hj => by
        have := hfail (j + 1) (by omega)
        simpa [Nat.add_assoc, Nat.add_comm 1 j] using this)
      (by simpa [Nat.add_assoc, Nat.add_comm 1 k] using hok)
    simp [hrec]

/-- C3: if the transport fails at attempts `0..k-2` and returns an HTTP
response (any status code, 4xx/5xx included) at attempt `k ≤ retryCount`,
the engine performs exactly `k` attempts and returns that response with no
error; a received status code never triggers a retry
(response.go:184-196). -/
theorem newDoRequest_returns_first_response (n k : Nat)
    (transport : Nat → Except String HttpResp) (err : Nat → String)
    (resp : HttpResp) (hk : 1 ≤ k) (hkn : k ≤ n)
    (hfail : ∀ j, j < k - 1 → transport j = .error (err j))
    (hok : transport (k - 1) = .ok resp) :
    newDoRequest n transport = (.success resp, k) := by
  obtain ⟨k', rfl⟩ : ∃ k', k = k' + 1 := ⟨k - 1, by omega⟩
  have := newDoRequestLoop_succeeds_at transport err resp k' n 0 none
    (by omega) (fun j hj => by simpa using hfail j (by omega))
    (by simpa using hok)
  simpa [newDoRequest] using this

/-- Witness for C3: a transport refusing the first connection and then
delivering a `502` response: the engine makes exactly two attempts and
returns the `502` response with no error. -/
theorem newDoRequest_returns_first_response_witness :
    1 ≤ 2 ∧ 2 ≤ 3 ∧
      newDoRequest 3
          (fun j => if j = 0 then .error "refused" else .ok ⟨502, "bad gateway"⟩) =
        (.success ⟨502, "bad gateway"⟩, 2) := by
  refine ⟨by decide, by decide, ?_⟩
  exact newDoRequest_returns_first_response 3 2
    (fun j => if j = 0 then .error "refused" else .ok ⟨502, "bad gateway"⟩)
    (fun _ => "refused") ⟨502, "bad gateway"⟩
    (by decide) (by decide)
    (fun j hj => by interval_cases j; rfl)
    (by rfl)

/-! ## Response wrapper (`src/unnamed/part_004:35-60`)

`GetByte` returns `nil` for a `nil` body, returns `[]byte(Result)` when the
`Result` field is non-empty, and otherwise reads the underlying stream to
completion and closes it (via the deferred `Body.Close`).  The stream is a
read-counting double: it records how many read-to-completion attempts were
made on it.  Reading an already-closed network body yields an error, which
`GetByte` turns into a `nil` return. -/

/-- Read-counting test double for the underlying network body stream. -/
structure GoStream where
  data : String
  closed : Bool
  reads : Nat
deriving DecidableEq

/-- The wrapper: `ResponseRaw.Body` (a `nil`-able stream) and the `Result`
string field of `builder.Response`. -/
structure GoResponse where
  body : Option GoStream
  result : String
deriving DecidableEq

/-- Number of read attempts made so far on the wrapped stream. -/
def GoResponse.readCount (r : GoResponse) : Nat :=
  match r.body with
  | none => 0
  | some s => s.reads

/-- `Response.GetByte` (src/unnamed/part_004:35-55).  Returns the bytes (as
a string; `""` for Go `nil`) and the wrapper as the call leaves it.  Note
the source checks `Result` as a cache but never assigns it. -/
def GetByte (r : GoResponse) : String × GoResponse :=
  match r.body with
  | none => ("", r)
  | some s =>
    if r.result ≠ "" then (r.result, r)
    else if s.closed then
      ("", { r with body := some { s with reads := s.reads + 1 } })
    else
      (s.data, { r with body := some { s with closed := true, reads := s.reads + 1 } })

/-- `Response.String` (src/unnamed/part_004:57-60): `string(GetByte())`. -/
def ResponseString (r : GoResponse) : String × GoResponse :=
  GetByte r

/-- C7 evaluated at the failing input: on a fresh response whose stream
holds `"hello"`, the first `GetByte` reads and closes the stream but leaves
`Result` empty, so a second `GetByte` performs a second read attempt on the
closed stream and returns `""` instead of the cached bytes
(src/unnamed/part_004:35-55). -/
theorem getByte_does_not_cache :
    (GetByte ⟨some ⟨"hello", false, 0⟩, ""⟩).1 = "hello" ∧
      ((GetByte ⟨some ⟨"hello", false, 0⟩, ""⟩).2).result = "" ∧
      (GetByte (GetByte ⟨some ⟨"hello", false, 0⟩, ""⟩).2).1 = "" ∧
      ((GetByte (GetByte ⟨some ⟨"hello", false, 0⟩, ""⟩).2).2).readCount = 2 := by
  refine ⟨rfl, rfl, by decide, by decide⟩

/-! ## The result-transform tail of `newResponse` (`response.go:108-150`)

After a successful exchange, `newResponse` applies the configured
`setResultFunc` hook to `response.String()`.  On a hook error or an empty
transformed result it logs, re-assigns `response.Result = response.String()`
and then executes `return nil, err` — discarding the response it has just
repaired and returning the hook's error (which may itself be `nil`). -/

/-- The tail of `newResponse` (response.go:139-149), starting from the
successful `newDoRequest` response.  Returns the Go pair
`(*Response, error)` as `(Option GoResponse, Option String)`. -/
def finalizeResponse (setResultFunc : Option (String → String × Option String))
    (resp : GoResponse) : Option GoResponse × Option String :=
  match setResultFunc with
  | none =>
    let read := ResponseString resp
    (some { read.2 with result := read.1 }, none)
  | some f =>
    let read := ResponseString resp
    let out := f read.1
    let r2 : GoResponse := { read.2 with result := out.1 }
    if out.2 ≠ none ∨ out.1 = "" then
      let read2 := ResponseString r2
      let _r3 : GoResponse := { read2.2 with result := read2.1 }
      (none, out.2)
    else
      (some r2, none)

/-- C1 evaluated at the failing inputs: with a configured hook, a response
whose raw body is `"data"` makes the dispatch return a `nil` response — with
a `nil` error when the hook returns `("", nil)`, and with the hook's error
when the hook fails — instead of a usable response carrying the raw body
(response.go:139-145). -/
theorem finalizeResponse_fails_call_on_hook_failure :
    finalizeResponse (some fun _ => ("", none)) ⟨some ⟨"data", false, 0⟩, ""⟩ =
        (none, none) ∧
      finalizeResponse (some fun _ => ("", some "hook failed"))
          ⟨some ⟨"data", false, 0⟩, ""⟩ =
        (none, some "hook failed") := by
  constructor <;> rfl

/-! ## `Client.R()` cookie copying (`client.go:133-158`)

`R` allocates `cookies := make([]*http.Cookie, 0)` — a slice of length zero —
and then writes `cookies[i] = newCookie` inside `for i, cookie := range
client.Cookies`.  In Go an indexed write beyond the slice length panics with
an index-out-of-range runtime error; the model maps that panic to `none`. -/

/-- An `http.Cookie` restricted to the fields this library sets. -/
structure Cookie where
  name : String
  value : String
deriving DecidableEq

/-- Go slice indexed write `xs[i] = a`: `none` is the index-out-of-range
panic. -/
def sliceSet (xs : List Cookie) (i : Nat) (a : Cookie) : Option (List Cookie) :=
  if i < xs.length then some (xs.set i a) else none

/-- The cookie-copy loop of `Client.R` (client.go:141-148): start from the
zero-length slice of `make([]*http.Cookie, 0)` and write the copied cookie
at index `i` for each entry of `client.Cookies`. -/
def copyCookies (clientCookies : List Cookie) : Option (List Cookie) :=
  clientCookies.enum.foldl
    (fun acc p => acc.bind fun cs => sliceSet cs p.1 p.2) (some [])

/-- C10 evaluated at the failing input: with no cookies `R` builds the empty
copy, but with a single cookie the indexed write into the zero-length slice
panics (index out of range), so `R` does not return a request at all
(client.go:141-148). -/
theorem copyCookies_panics_on_nonempty :
    copyCookies [] = some [] ∧ copyCookies [⟨"session", "abc"⟩] = none := by
  constructor <;> rfl

/-! ## Request state and content negotiation

The per-call request state (`request.go:14-26`): method, header map,
query-parameter map, form-data map, the opaque body, the staged body buffer
`bodyBuf`, the staged `bodyBytes`, and the URL's raw query.  Body shapes the
claims exercise: a Go `string` and a string-keyed map (`map[string]string` /
`map[string]interface` with primitive values). -/

/-- A primitive Go value stored in a string-keyed body map. -/
inductive GoVal where
  | str (s : String)
  | num (n : Int)
  | boolean (b : Bool)
deriving DecidableEq

/-- The runtime shapes of `Request.Body` that the claims exercise. -/
inductive BodyVal where
  | str (s : String)
  | mapB (m : List (String × GoVal))
deriving DecidableEq

/-- `Request` (request.go:14-26), restricted to the fields the dispatch
pipeline reads and writes. -/
structure GoRequest where
  method : String
  headers : SyncMap
  queryParam : SyncMap
  formData : SyncMap
  body : Option BodyVal
  bodyBuf : Option String
  bodyBytes : Option String
  urlRawQuery : String
deriving DecidableEq

def plainTextType : String := "text/plain; charset=utf-8"

def jsonContentType : String := "application/json"

def formContentType : String := "application/x-www-form-urlencoded"

/-- `Request.SetQueryParams` (request.go:62-67): `Store` every pair. -/
def SetQueryParams (r : GoRequest) (query : List (String × String)) : GoRequest :=
  { r with queryParam := storeAll r.queryParam query }

/-- `Request.GetHeaderContentType` (request.go:172-179): scan the header map
(as `GetRequestHeader` materializes it, which drops entries with an empty
key or value) and return the value stored under `Content-Type`, else `""`. -/
def GetHeaderContentType (headers : SyncMap) : String :=
  match headers.find? (fun p => p.1 == "Content-Type" && p.2 != "") with
  | some p => p.2
  | none => ""

theorem find?_contentType_map_overwrite (v : String) (hv : (v != "") = true) :
    ∀ h : SyncMap, h.any (fun p => p.1 == "Content-Type") = true →
      (h.map fun p => if p.1 == "Content-Type" then ("Content-Type", v) else p).find?
          (fun p => p.1 == "Content-Type" && p.2 != "") =
        some ("Content-Type", v) := by
  intro h
  induction h with
  | nil => intro hany; simp at hany
  | cons q t ih =>
    intro hany
    rw [List.any_cons] at hany
    rcases hqv : (q.1 == "Content-Type") with _ | _
    · rw [hqv, Bool.false_or] at hany
      rw [List.map_cons,
        if_neg (show ¬ (q.1 == "Content-Type") = true by
          rw [hqv]; exact Bool.false_ne_true),
        List.find?_cons, hqv, Bool.false_and]
      exact ih hany
    · rw [List.map_cons, if_pos hqv, List.find?_cons]
      simp [hv]

theorem find?_contentType_append (v : String) (hv : (v != "") = true) :
    ∀ h : SyncMap, h.any (fun p => p.1 == "Content-Type") = false →
      (h ++ [("Content-Type", v)]).find?
          (fun p => p.1 == "Content-Type" && p.2 != "") =
        some ("Content-Type", v) := by
  intro h
  induction h with
  | nil =>
    intro _
    rw [List.nil_append, List.find?_cons]
    simp [hv]
  | cons q t ih =>
    intro hany
    rw [List.any_cons] at hany
    rcases hor : (q.1 == "Content-Type") with _ | _
    · rw [hor, Bool.false_or] at hany
      rw [List.cons_append, List.find?_cons, hor, Bool.false_and]
      exact ih hany
    · rw [hor, Bool.true_or] at hany
      exact Bool.noConfusion hany

theorem getHeaderContentType_store (h : SyncMap) (v : String) (hv : v ≠ "") :
    GetHeaderContentType (store h "Content-Type" v) = v := by
  have hvb : (v != "") = true := by simpa using hv
  unfold GetHeaderContentType store
  by_cases hany : h.any (fun p => p.1 == "Content-Type") = true
  · rw [if_pos hany, find?_contentType_map_overwrite v hvb h hany]
  · rw [if_neg hany,
      find?_contentType_append v hvb h (Bool.eq_false_iff.mpr hany)]

/-! ## `setBody` and the v1 dispatch pipeline (`response.go:108-181`)

`setBody` (response.go:152-181) consults the explicit `Content-Type`: a
string body with form content type that is valid JSON is parsed by
`jsonToMap` and merged into the query parameters; otherwise the string (or
the JSON text of a map body) replaces `bodyBuf`.  `newRequestWithContext`
(response.go:77-106) then appends the encoded query parameters to the URL's
raw query for `GET` and to `bodyBuf` for every other method.

`gjson.Valid` (external library) and `jsonToMap` / `mapToJson` (repository
methods whose definitions are not under `src/`) are parameters of the
embedding.  Modelled from the spec: `jsonToMap` parses a JSON object into a
flat key-to-value mapping with non-string primitives stringified, and
`mapToJson` renders a map as JSON text; theorems constrain the parameters
pointwise through hypotheses instead of fixing an implementation. -/

/-- `setBody` (response.go:152-181) for the body shapes of the embedding. -/
def setBody (gjsonValid : String → Bool)
    (jsonToMap : String → List (String × String))
    (mapToJson : List (String × GoVal) → String) (r : GoRequest) : GoRequest :=
  match r.body with
  | some (.str body) =>
    if GetHeaderContentType r.headers = formContentType then
      if gjsonValid body then SetQueryParams r (jsonToMap body) else r
    else { r with bodyBuf := some body }
  | some (.mapB m) =>
    if GetHeaderContentType r.headers = formContentType then
      SetQueryParams r (jsonToMap (mapToJson m))
    else { r with bodyBuf := some (mapToJson m) }
  | none => r

/-- The query-parameter step of `newRequestWithContext`
(response.go:83-93): a non-empty encoding goes to the URL's raw query for
`GET` and is written into `bodyBuf` for every other method. -/
def newRequestEncodeParams (r : GoRequest) : GoRequest :=
  let enc := GetQueryParamsEncode r.queryParam
  if enc ≠ "" then
    if r.method = "GET" then
      if r.urlRawQuery ≠ "" then { r with urlRawQuery := r.urlRawQuery ++ "&" ++ enc }
      else { r with urlRawQuery := enc }
    else { r with bodyBuf := some (r.bodyBuf.getD "" ++ enc) }
  else r

/-- The body phase of `newResponse` followed by `newRequestWithContext`
(response.go:120-127): allocate an empty `bodyBuf` if none, run `setBody`
when a body is present, then place the encoded query parameters. -/
def dispatchBody (gjsonValid : String → Bool)
    (jsonToMap : String → List (String × String))
    (mapToJson : List (String × GoVal) → String) (r : GoRequest) : GoRequest :=
  let r1 := if r.bodyBuf = none then { r with bodyBuf := some "" } else r
  let r2 := match r1.body with
            | some _ => setBody gjsonValid jsonToMap mapToJson r1
            | none => r1
  newRequestEncodeParams r2

theorem store_eq_append (m : SyncMap) (k v : String)
    (hk : ∀ p ∈ m, p.1 ≠ k) : store m k v = m ++ [(k, v)] := by
  unfold store
  rw [if_neg]
  intro hany
  obtain ⟨p, hp, hpk⟩ := List.any_eq_true.mp hany
  exact hk p hp (by simpa using hpk)

theorem storeAll_eq_append (ps : List (String × String)) :
    ∀ m : SyncMap, ((m ++ ps).map Prod.fst).Nodup → storeAll m ps = m ++ ps := by
  induction ps with
  | nil => intro m _; simp [storeAll]
  | cons p rest ih =>
    intro m hnd
    have hknotin : ∀ q ∈ m, q.1 ≠ p.1 := by
      intro q hq
      have hmem1 : q.1 ∈ m.map Prod.fst := List.mem_map_of_mem Prod.fst hq
      have hmem2 : p.1 ∈ (p :: rest).map Prod.fst := by simp
      have := (List.nodup_append.mp (by simpa using hnd)).2.2
      exact fun he => this hmem1 (by rw [he]; exact hmem2)
    have hstep : store m p.1 p.2 = m ++ [p] := by
      rw [store_eq_append m p.1 p.2 hknotin]
    have hrec := ih (m ++ [p]) (by
      have : (m ++ [p]) ++ rest = m ++ p :: rest := by simp
      rw [this]
      exact hnd)
    calc storeAll m (p :: rest)
        = storeAll (store m p.1 p.2) rest := rfl
      _ = storeAll (m ++ [p]) rest := by rw [hstep]
      _ = (m ++ [p]) ++ rest := hrec
      _ = m ++ p :: rest := by simp

/-- C5 amended: for a non-`GET` request with form content type, a string
body that is valid JSON parsing to the flat mapping `obj` (with distinct
keys), and no query parameters set before dispatch, the payload handed to
the HTTP request is exactly the URL-encoded flattening of `obj`, and
nothing is appended to the URL query (response.go:152-181, 83-93). -/
theorem dispatchBody_form_json_payload (gjsonValid : String → Bool)
    (jsonToMap : String → List (String × String))
    (mapToJson : List (String × GoVal) → String)
    (method s rawQuery : String) (obj : List (String × String))
    (headers formData : SyncMap) (bodyBytes : Option String)
    (hm : method ≠ "GET") (hct : GetHeaderContentType headers = formContentType)
    (hv : gjsonValid s = true) (hj : jsonToMap s = obj)
    (hnd : (obj.map Prod.fst).Nodup) :
    (dispatchBody gjsonValid jsonToMap mapToJson
        { method := method, headers := headers, queryParam := [],
          formData := formData, body := some (.str s), bodyBuf := none,
          bodyBytes := bodyBytes, urlRawQuery := rawQuery }).bodyBuf =
        some (GetQueryParamsEncode obj) ∧
      (dispatchBody gjsonValid jsonToMap mapToJson
        { method := method, headers := headers, queryParam := [],
          formData := formData, body := some (.str s), bodyBuf := none,
          bodyBytes := bodyBytes, urlRawQuery := rawQuery }).urlRawQuery =
        rawQuery := by
  have hq : storeAll ([] : SyncMap) obj = obj := by
    simpa using storeAll_eq_append obj [] (by simpa using hnd)
  unfold dispatchBody
  simp only [setBody, SetQueryParams, hct, hv, hj, if_pos rfl, if_true, hq]
  unfold newRequestEncodeParams
  by_cases henc : GetQueryParamsEncode obj = ""
  · simp [henc]
  · simp [henc, hm]

/-- Witness for the C5 amended theorem: a `POST` with form content type and
body text parsing to the single pair `a=b` stages exactly `a=b` in the
payload buffer. -/
theorem dispatchBody_form_json_payload_witness :
    "POST" ≠ "GET" ∧
      GetHeaderContentType [("Content-Type", formContentType)] = formContentType ∧
      (dispatchBody (fun _ => true) (fun _ => [("a", "b")]) (fun _ => "")
          { method := "POST", headers := [("Content-Type", formContentType)],
            queryParam := [], formData := [],
            body := some (.str "\x7b\"a\":\"b\"\x7d"), bodyBuf := none,
            bodyBytes := none, urlRawQuery := "" }).bodyBuf = some "a=b" := by
  refine ⟨by decide, by rfl, ?_⟩
  have h := dispatchBody_form_json_payload (fun _ => true) (fun _ => [("a", "b")])
    (fun _ => "") "POST" "\x7b\"a\":\"b\"\x7d" "" [("a", "b")]
    [("Content-Type", formContentType)] [] none
    (by decide) (by rfl) rfl rfl (by simp)
  exact h.1.trans (by rfl)

/-- C5 counterexample: the claim as stated fails on the code in two
reachable ways.  For a `GET` request with form content type and JSON string
body, the encoded pairs go to the URL query and the payload stays empty;
for a `POST` whose query-parameter map already holds `x=1`, the payload is
the merged encoding, not the object's pairs alone (response.go:83-93). -/
theorem dispatchBody_form_json_payload_counterexample :
    ((dispatchBody (fun _ => true) (fun _ => [("a", "b")]) (fun _ => "")
        { method := "GET", headers := [("Content-Type", formContentType)],
          queryParam := [], formData := [],
          body := some (.str "\x7b\"a\":\"b\"\x7d"), bodyBuf := none,
          bodyBytes := none, urlRawQuery := "" }).bodyBuf = some "" ∧
      (dispatchBody (fun _ => true) (fun _ => [("a", "b")]) (fun _ => "")
        { method := "GET", headers := [("Content-Type", formContentType)],
          queryParam := [], formData := [],
          body := some (.str "\x7b\"a\":\"b\"\x7d"), bodyBuf := none,
          bodyBytes := none, urlRawQuery := "" }).urlRawQuery = "a=b" ∧
      some "" ≠ some "a=b") ∧
    ((dispatchBody (fun _ => true) (fun _ => [("a", "b")]) (fun _ => "")
        { method := "POST", headers := [("Content-Type", formContentType)],
          queryParam := [("x", "1")], formData := [],
          body := some (.str "\x7b\"a\":\"b\"\x7d"), bodyBuf := none,
          bodyBytes := none, urlRawQuery := "" }).bodyBuf = some "x=1&a=b" ∧
      some "x=1&a=b" ≠ some "a=b") := by
  exact ⟨⟨rfl, rfl, by decide⟩, ⟨rfl, by decide⟩⟩

/-! ## Content negotiation (`util.go`)

`parseRequestBody` (util.go:86-103) routes form data first, then infers a
missing `Content-Type` with `DetectContentType` and serializes the body in
`handleRequestBody` (util.go:105-146), using the client's configured
`JSONMarshal` function (a parameter here). -/

/-- ASCII whitespace as `strings.TrimSpace` treats it. -/
def isSpaceChar (c : Char) : Bool :=
  c == ' ' || c == '\t' || c == '\n' || c == '\x0b' || c == '\x0c' || c == '\r'

/-- `strings.TrimSpace`: drop leading and trailing whitespace. -/
def trimSpace (s : String) : String :=
  ⟨((s.data.dropWhile isSpaceChar).reverse.dropWhile isSpaceChar).reverse⟩

/-- `IsStringEmpty` (util.go:41-43): whitespace-trimmed length is zero. -/
def IsStringEmpty (str : String) : Bool :=
  (trimSpace str).length == 0

/-- `DetectContentType` (util.go:46-63) on the embedded body shapes: a map
(`reflect.Map`) is JSON, a string (`reflect.String`) is plain text. -/
def DetectContentType (body : BodyVal) : String :=
  match body with
  | .mapB _ => jsonContentType
  | .str _ => plainTextType

/-- `needle` occurs as a contiguous run inside `hay`. -/
def containsSeq (hay needle : List Char) : Bool :=
  (List.range (hay.length + 1)).any fun i => (hay.drop i).take needle.length == needle

/-- `IsJSONType` (util.go:66-68): the unanchored, case-insensitive regex
match for the pattern (application or text, a slash, then any run
containing json, then a semicolon or line end).  Because the run after
json may extend to the end of the string, the trailing alternative is
always satisfiable on newline-free content types, so the regex accepts
exactly the strings containing application-slash or text-slash followed
somewhere later by json, case-insensitively. -/
def IsJSONType (ct : String) : Bool :=
  let l := ct.data.map Char.toLower
  (List.range (l.length + 1)).any fun i =>
    (((l.drop i).take 12 == "application/".data) &&
        containsSeq (l.drop (i + 12)) "json".data) ||
      (((l.drop i).take 5 == "text/".data) &&
        containsSeq (l.drop (i + 5)) "json".data)

theorem IsJSONType_json : IsJSONType jsonContentType = true := by rfl

theorem IsJSONType_html : IsJSONType "text/html" = false := by rfl

/-- The tail of `handleRequestBody` (util.go:135-145): no staged bytes and
no buffer is the unsupported-body error; staged bytes without a buffer are
copied into a fresh buffer. -/
def finishBody (r : GoRequest) : Except String GoRequest :=
  match r.bodyBytes, r.bodyBuf with
  | none, none => .error "unsupported 'Body' type/value"
  | some bs, none => .ok { r with bodyBuf := some bs }
  | _, _ => .ok r

/-- `handleRequestBody` (util.go:105-146): release the staged buffer, then
stage a string body as bytes, or marshal a map body when the content type is
JSON-like (the XML branch requires a struct body and cannot fire for a
map). -/
def handleRequestBody (marshal : List (String × GoVal) → Except String String)
    (r0 : GoRequest) : Except String GoRequest :=
  let r := { r0 with bodyBuf := none }
  match r.body with
  | some (.str s) => finishBody { r with bodyBytes := some s }
  | some (.mapB m) =>
    if IsJSONType (GetHeaderContentType r.headers) then
      match marshal m with
      | .error e => .error e
      | .ok data => finishBody { r with bodyBytes := some data, bodyBuf := some data }
    else finishBody r
  | none => finishBody r

/-- `parseRequestBody` (util.go:86-103): encoded form data wins and forces
the form content type; otherwise a present body gets a detected content
type when none is set and is serialized by `handleRequestBody`. -/
def parseRequestBody (marshal : List (String × GoVal) → Except String String)
    (r : GoRequest) : Except String GoRequest :=
  if GetFormDataEncode r.formData ≠ "" then
    .ok { r with bodyBuf := some (GetFormDataEncode r.formData),
                 headers := store r.headers "Content-Type" formContentType }
  else
    match r.body with
    | none => .ok r
    | some b =>
      let r1 := if IsStringEmpty (GetHeaderContentType r.headers) then
          { r with headers := store r.headers "Content-Type" (DetectContentType b) }
        else r
      handleRequestBody marshal r1

/-- C6: a string-keyed map body with no explicit content type and no form
data negotiates the content type to application/json and stages exactly the
configured marshal function's output as the payload (util.go:46-63, 86-103,
105-146). -/
theorem parseRequestBody_map_negotiates_json
    (marshal : List (String × GoVal) → Except String String)
    (m : List (String × GoVal)) (data : String) (r : GoRequest)
    (hform : r.formData = []) (hct : GetHeaderContentType r.headers = "")
    (hbody : r.body = some (.mapB m)) (hm : marshal m = .ok data) :
    ∃ r', parseRequestBody marshal r = .ok r' ∧
      GetHeaderContentType r'.headers = jsonContentType ∧
      r'.bodyBuf = some data := by
  have hjson : jsonContentType ≠ "" := by decide
  have hstore : GetHeaderContentType (store r.headers "Content-Type" jsonContentType) =
      jsonContentType := getHeaderContentType_store r.headers jsonContentType hjson
  apply Exists.intro ({ r with
    headers := store r.headers "Content-Type" jsonContentType,
    bodyBuf := some data,
    bodyBytes := some data })
  refine ⟨?_, by simpa using hstore, rfl⟩
  unfold parseRequestBody
  rw [if_neg (by rw [hform]; exact fun hcontra => hcontra rfl)]
  rw [hbody]
  simp only [hct, DetectContentType]
  rw [if_pos (by rfl)]
  unfold handleRequestBody
  simp only [hbody, hstore, IsJSONType_json, if_true, hm]
  rfl

/-- Witness for C6 at the spec's example: the mapping with name John and
age 30, no explicit content type, marshalled by the configured function,
negotiates application/json and stages the marshal output. -/
theorem parseRequestBody_map_negotiates_json_witness :
    GoRequest.formData
        { method := "POST", headers := [], queryParam := [], formData := [],
          body := some (.mapB [("name", .str "John"), ("age", .num 30)]),
          bodyBuf := none, bodyBytes := none, urlRawQuery := "" } = [] ∧
      (∃ r', parseRequestBody (fun _ => .ok "\x7b\"name\":\"John\",\"age\":30\x7d")
          { method := "POST", headers := [], queryParam := [], formData := [],
            body := some (.mapB [("name", .str "John"), ("age", .num 30)]),
            bodyBuf := none, bodyBytes := none, urlRawQuery := "" } = .ok r' ∧
        GetHeaderContentType r'.headers = jsonContentType ∧
        r'.bodyBuf = some "\x7b\"name\":\"John\",\"age\":30\x7d") :=
  ⟨rfl, parseRequestBody_map_negotiates_json
    (fun _ => .ok "\x7b\"name\":\"John\",\"age\":30\x7d")
    [("name", .str "John"), ("age", .num 30)]
    "\x7b\"name\":\"John\",\"age\":30\x7d"
    { method := "POST", headers := [], queryParam := [], formData := [],
      body := some (.mapB [("name", .str "John"), ("age", .num 30)]),
      bodyBuf := none, bodyBytes := none, urlRawQuery := "" }
    rfl rfl rfl rfl⟩

end Builder
